import Mathlib

/-!
Verification of the camera/coordinate-mapping subsystem and the polynomial
tessellator of the graphing-calculator repository (src/camera.rs and
src/graphing_engine/geometry.rs).

Modelling conventions:
* `f32` arithmetic is modelled by exact rational arithmetic over `ℚ`.
* The transcendental library functions used by the code (`sqrt`, `sin`, `cos`,
  `atan2`, and the cotangent-of-half-angle used by `cgmath::perspective`) are
  bundled in a `RealFuns` record of function parameters, so every definition
  stays executable and no property depends on a particular approximation.
* Machine integers are modelled by `ℤ`/`ℕ` with explicit clamping (`as u32`
  saturating float casts, `saturating_mul`/`saturating_add` on `i32`) and
  explicit `% 2^16` where the code stores `u16` indices.
* Fallible code (the `unwrap` of `cgmath`'s matrix inversion, the panicking
  `i32::abs` at `i32::MIN`, `step_by(0)`) is modelled with `Option`.
* `cgmath::Matrix4::new` takes its 16 entries in column-major order; the
  matrix constants below are written through `Mat4.ofCols` which mirrors that
  exact argument order.
-/

namespace GraphCalc

/-- Bundle of the transcendental real functions used by the code, kept as
explicit parameters of the model.  `cotDegHalf f` models
`cot(radians(f) / 2)` as computed inside `cgmath::perspective` for a
field-of-view angle `f` given in degrees. -/
structure RealFuns where
  sqrt : ℚ → ℚ
  cotDegHalf : ℚ → ℚ
  sin : ℚ → ℚ
  cos : ℚ → ℚ
  atan2 : ℚ → ℚ → ℚ

/-- Model of `cgmath::Vector2<f32>` (also used for `winit` pixel positions). -/
structure Vec2 where
  x : ℚ
  y : ℚ
deriving DecidableEq

/-- Model of `cgmath::Vector3<f32>` / `cgmath::Point3<f32>`. -/
structure Vec3 where
  x : ℚ
  y : ℚ
  z : ℚ
deriving DecidableEq

/-- Model of `cgmath::Vector4<f32>`. -/
structure Vec4 where
  x : ℚ
  y : ℚ
  z : ℚ
  w : ℚ
deriving DecidableEq

instance : Add Vec3 := ⟨fun a b => ⟨a.x + b.x, a.y + b.y, a.z + b.z⟩⟩

instance : Sub Vec3 := ⟨fun a b => ⟨a.x - b.x, a.y - b.y, a.z - b.z⟩⟩

/-- Scalar multiple of a vector (`v * c` on `cgmath` vectors). -/
def Vec3.scale (c : ℚ) (v : Vec3) : Vec3 := ⟨c * v.x, c * v.y, c * v.z⟩

/-- Dot product (`cgmath::dot`). -/
def Vec3.dot (a b : Vec3) : ℚ := a.x * b.x + a.y * b.y + a.z * b.z

/-- Cross product (`cgmath::Vector3::cross`). -/
def Vec3.cross (a b : Vec3) : Vec3 :=
  ⟨a.y * b.z - a.z * b.y, a.z * b.x - a.x * b.z, a.x * b.y - a.y * b.x⟩

/-- Vector magnitude `sqrt(v ⬝ v)` (`cgmath::InnerSpace::magnitude`). -/
def Vec3.magnitude (R : RealFuns) (v : Vec3) : ℚ := R.sqrt (Vec3.dot v v)

/-- Normalisation `v * (1 / |v|)` (`cgmath::InnerSpace::normalize`). -/
def Vec3.normalize (R : RealFuns) (v : Vec3) : Vec3 :=
  Vec3.scale (1 / Vec3.magnitude R v) v

/-- Model of `winit::dpi::PhysicalSize<u32>`. -/
structure PhysicalSize where
  width : ℕ
  height : ℕ
deriving DecidableEq

/-- Row-major 4×4 rational matrix, modelling `cgmath::Matrix4<f32>`; `mRC` is
the entry in row `R`, column `C`. -/
structure Mat4 where
  m00 : ℚ
  m01 : ℚ
  m02 : ℚ
  m03 : ℚ
  m10 : ℚ
  m11 : ℚ
  m12 : ℚ
  m13 : ℚ
  m20 : ℚ
  m21 : ℚ
  m22 : ℚ
  m23 : ℚ
  m30 : ℚ
  m31 : ℚ
  m32 : ℚ
  m33 : ℚ
deriving DecidableEq

/-- Constructor mirroring the column-major argument order of
`cgmath::Matrix4::new(c0r0, c0r1, ..., c3r3)`. -/
def Mat4.ofCols (c0r0 c0r1 c0r2 c0r3 c1r0 c1r1 c1r2 c1r3
    c2r0 c2r1 c2r2 c2r3 c3r0 c3r1 c3r2 c3r3 : ℚ) : Mat4 :=
  ⟨c0r0, c1r0, c2r0, c3r0,
   c0r1, c1r1, c2r1, c3r1,
   c0r2, c1r2, c2r2, c3r2,
   c0r3, c1r3, c2r3, c3r3⟩

/-- Matrix product (`Matrix4 * Matrix4`). -/
def Mat4.mul (a b : Mat4) : Mat4 :=
  ⟨a.m00 * b.m00 + a.m01 * b.m10 + a.m02 * b.m20 + a.m03 * b.m30,
   a.m00 * b.m01 + a.m01 * b.m11 + a.m02 * b.m21 + a.m03 * b.m31,
   a.m00 * b.m02 + a.m01 * b.m12 + a.m02 * b.m22 + a.m03 * b.m32,
   a.m00 * b.m03 + a.m01 * b.m13 + a.m02 * b.m23 + a.m03 * b.m33,
   a.m10 * b.m00 + a.m11 * b.m10 + a.m12 * b.m20 + a.m13 * b.m30,
   a.m10 * b.m01 + a.m11 * b.m11 + a.m12 * b.m21 + a.m13 * b.m31,
   a.m10 * b.m02 + a.m11 * b.m12 + a.m12 * b.m22 + a.m13 * b.m32,
   a.m10 * b.m03 + a.m11 * b.m13 + a.m12 * b.m23 + a.m13 * b.m33,
   a.m20 * b.m00 + a.m21 * b.m10 + a.m22 * b.m20 + a.m23 * b.m30,
   a.m20 * b.m01 + a.m21 * b.m11 + a.m22 * b.m21 + a.m23 * b.m31,
   a.m20 * b.m02 + a.m21 * b.m12 + a.m22 * b.m22 + a.m23 * b.m32,
   a.m20 * b.m03 + a.m21 * b.m13 + a.m22 * b.m23 + a.m23 * b.m33,
   a.m30 * b.m00 + a.m31 * b.m10 + a.m32 * b.m20 + a.m33 * b.m30,
   a.m30 * b.m01 + a.m31 * b.m11 + a.m32 * b.m21 + a.m33 * b.m31,
   a.m30 * b.m02 + a.m31 * b.m12 + a.m32 * b.m22 + a.m33 * b.m32,
   a.m30 * b.m03 + a.m31 * b.m13 + a.m32 * b.m23 + a.m33 * b.m33⟩

/-- Matrix-vector product (`Matrix4 * Vector4`). -/
def Mat4.apply (m : Mat4) (v : Vec4) : Vec4 :=
  ⟨m.m00 * v.x + m.m01 * v.y + m.m02 * v.z + m.m03 * v.w,
   m.m10 * v.x + m.m11 * v.y + m.m12 * v.z + m.m13 * v.w,
   m.m20 * v.x + m.m21 * v.y + m.m22 * v.z + m.m23 * v.w,
   m.m30 * v.x + m.m31 * v.y + m.m32 * v.z + m.m33 * v.w⟩

/-- Determinant of a 4×4 matrix via Laplace expansion on the first two rows,
as used by `cgmath::SquareMatrix::determinant`. -/
def Mat4.det (m : Mat4) : ℚ :=
  let s0 := m.m00 * m.m11 - m.m10 * m.m01
  let s1 := m.m00 * m.m12 - m.m10 * m.m02
  let s2 := m.m00 * m.m13 - m.m10 * m.m03
  let s3 := m.m01 * m.m12 - m.m11 * m.m02
  let s4 := m.m01 * m.m13 - m.m11 * m.m03
  let s5 := m.m02 * m.m13 - m.m12 * m.m03
  let c5 := m.m22 * m.m33 - m.m32 * m.m23
  let c4 := m.m21 * m.m33 - m.m31 * m.m23
  let c3 := m.m21 * m.m32 - m.m31 * m.m22
  let c2 := m.m20 * m.m33 - m.m30 * m.m23
  let c1 := m.m20 * m.m32 - m.m30 * m.m22
  let c0 := m.m20 * m.m31 - m.m30 * m.m21
  s0 * c5 - s1 * c4 + s2 * c3 + s3 * c2 - s4 * c1 + s5 * c0

/-- Adjugate (transpose of the cofactor matrix), so that
`m * adjugate m = det m • 1`. -/
def Mat4.adjugate (m : Mat4) : Mat4 :=
  let s0 := m.m00 * m.m11 - m.m10 * m.m01
  let s1 := m.m00 * m.m12 - m.m10 * m.m02
  let s2 := m.m00 * m.m13 - m.m10 * m.m03
  let s3 := m.m01 * m.m12 - m.m11 * m.m02
  let s4 := m.m01 * m.m13 - m.m11 * m.m03
  let s5 := m.m02 * m.m13 - m.m12 * m.m03
  let c5 := m.m22 * m.m33 - m.m32 * m.m23
  let c4 := m.m21 * m.m33 - m.m31 * m.m23
  let c3 := m.m21 * m.m32 - m.m31 * m.m22
  let c2 := m.m20 * m.m33 - m.m30 * m.m23
  let c1 := m.m20 * m.m32 - m.m30 * m.m22
  let c0 := m.m20 * m.m31 - m.m30 * m.m21
  ⟨m.m11 * c5 - m.m12 * c4 + m.m13 * c3,
   -m.m01 * c5 + m.m02 * c4 - m.m03 * c3,
   m.m31 * s5 - m.m32 * s4 + m.m33 * s3,
   -m.m21 * s5 + m.m22 * s4 - m.m23 * s3,
   -m.m10 * c5 + m.m12 * c2 - m.m13 * c1,
   m.m00 * c5 - m.m02 * c2 + m.m03 * c1,
   -m.m30 * s5 + m.m32 * s2 - m.m33 * s1,
   m.m20 * s5 - m.m22 * s2 + m.m23 * s1,
   m.m10 * c4 - m.m11 * c2 + m.m13 * c0,
   -m.m00 * c4 + m.m01 * c2 - m.m03 * c0,
   m.m30 * s4 - m.m31 * s2 + m.m33 * s0,
   -m.m20 * s4 + m.m21 * s2 - m.m23 * s0,
   -m.m10 * c3 + m.m11 * c1 - m.m12 * c0,
   m.m00 * c3 - m.m01 * c1 + m.m02 * c0,
   -m.m30 * s3 + m.m31 * s1 - m.m32 * s0,
   m.m20 * s3 - m.m21 * s1 + m.m22 * s0⟩

/-- Uniform scaling of all matrix entries. -/
def Mat4.scaleEntries (c : ℚ) (m : Mat4) : Mat4 :=
  ⟨c * m.m00, c * m.m01, c * m.m02, c * m.m03,
   c * m.m10, c * m.m11, c * m.m12, c * m.m13,
   c * m.m20, c * m.m21, c * m.m22, c * m.m23,
   c * m.m30, c * m.m31, c * m.m32, c * m.m33⟩

/-- Model of `cgmath::SquareMatrix::invert`: `None` when the determinant is
zero, otherwise the inverse `adjugate / det`. -/
def Mat4.invert (m : Mat4) : Option Mat4 :=
  if Mat4.det m = 0 then none else some (Mat4.scaleEntries (1 / Mat4.det m) (Mat4.adjugate m))

/-- Model of `cgmath::Matrix4::look_at_rh(eye, center, up)`. -/
def look_at_rh (R : RealFuns) (eye center up : Vec3) : Mat4 :=
  let f := Vec3.normalize R (center - eye)
  let s := Vec3.normalize R (Vec3.cross f up)
  let u := Vec3.cross s f
  Mat4.ofCols
    s.x u.x (-f.x) 0
    s.y u.y (-f.y) 0
    s.z u.z (-f.z) 0
    (-(Vec3.dot eye s)) (-(Vec3.dot eye u)) (Vec3.dot eye f) 1

/-- Model of `cgmath::perspective(Deg(fovy), aspect, near, far)`. -/
def perspective (R : RealFuns) (fovy aspect near far : ℚ) : Mat4 :=
  let f := R.cotDegHalf fovy
  Mat4.ofCols
    (f / aspect) 0 0 0
    0 f 0 0
    0 0 ((far + near) / (near - far)) (-1)
    0 0 ((2 * far * near) / (near - far)) 0

/-- The constant `OPENGL_TO_WGPU_MATRIX` of `src/camera.rs`, with the 16
literals in the source's (column-major) order. -/
def OPENGL_TO_WGPU_MATRIX : Mat4 :=
  Mat4.ofCols
    1 0 0 0
    0 1 0 0
    0 0 (1/2) (1/2)
    0 0 0 1

/-- The function `calculate_screen_space` of `src/camera.rs`: NDC to pixel
coordinates. -/
def calculate_screen_space (pos : Vec2) (size : PhysicalSize) : Vec2 :=
  let x := ((size.width : ℚ) * (pos.x + 1)) / 2
  let y := ((size.height : ℚ) * (pos.y - 1)) / (-2)
  ⟨x, y⟩

/-- The function `normalise_screen_space` of `src/camera.rs`: pixel to NDC
coordinates. -/
def normalise_screen_space (pos : Vec2) (size : PhysicalSize) : Vec2 :=
  let x := (2 / (size.width : ℚ)) * pos.x - 1
  let y := (-2 / (size.height : ℚ)) * pos.y + 1
  ⟨x, y⟩

/-- The `Camera` struct of `src/camera.rs`. -/
structure Camera where
  eye : Vec3
  target : Vec3
  up : Vec3
  aspect : ℚ
  fovy : ℚ
  znear : ℚ
  zfar : ℚ
deriving DecidableEq

/-- `Camera::build_view_projection_matrix`. -/
def Camera.build_view_projection_matrix (R : RealFuns) (c : Camera) : Mat4 :=
  let view := look_at_rh R c.eye c.target c.up
  let proj := perspective R c.fovy c.aspect c.znear c.zfar
  Mat4.mul (Mat4.mul OPENGL_TO_WGPU_MATRIX proj) view

/-- `Camera::build_proj_matrix`. -/
def Camera.build_proj_matrix (R : RealFuns) (c : Camera) : Mat4 :=
  let proj := perspective R c.fovy c.aspect c.znear c.zfar
  Mat4.mul OPENGL_TO_WGPU_MATRIX proj

/-- `Camera::world_to_screen_space`. -/
def Camera.world_to_screen_space (R : RealFuns) (c : Camera) (pos : Vec3)
    (size : PhysicalSize) : Vec2 :=
  let clip_pos := Mat4.apply (Camera.build_view_projection_matrix R c) ⟨pos.x, pos.y, pos.z, 1⟩
  let normal_pos : Vec2 := ⟨clip_pos.x / clip_pos.w, clip_pos.y / clip_pos.w⟩
  calculate_screen_space normal_pos size

/-- `Camera::screen_to_view_space`; `none` models the panic of the
`invert().unwrap()` call on a singular projection matrix. -/
def Camera.screen_to_view_space (R : RealFuns) (c : Camera) (pos : Vec2)
    (size : PhysicalSize) : Option Vec2 :=
  let normal_pos := normalise_screen_space pos size
  (Mat4.invert (Camera.build_proj_matrix R c)).map fun m =>
    let p := Mat4.apply m ⟨normal_pos.x, normal_pos.y, 0, 1⟩
    ⟨p.x * (3/2), p.y * (3/2)⟩

/-- The `f32::signum` used by the snap correction: `1` for nonnegative
(including `+0.0`), `-1` for negative. -/
def rust_signum (q : ℚ) : ℚ := if q < 0 then -1 else 1

/-- `Camera::adjust_pan_with_cursor_position`. -/
def Camera.adjust_pan_with_cursor_position (R : RealFuns) (c : Camera)
    (cursor_location : Vec2) (origin : Vec2) (modifier : ℚ)
    (size : PhysicalSize) : Option Camera :=
  (Camera.screen_to_view_space R c cursor_location size).bind fun cursor_view =>
  (Camera.screen_to_view_space R c origin size).map fun origin_view =>
    let distance : Vec2 := ⟨cursor_view.x - origin_view.x, cursor_view.y - origin_view.y⟩
    let change : Vec3 := ⟨distance.x * c.eye.z, distance.y * c.eye.z, 0⟩
    let modnew := if |modifier| / 4 ≥ R.sqrt (|distance.x| ^ 2 * |distance.y| ^ 2)
      then rust_signum modifier else modifier
    { c with eye := c.eye + Vec3.scale modnew change,
             target := c.target + Vec3.scale modnew change }

/-- Model of `winit::event::ElementState`. -/
inductive ElemState where
  | pressed
  | released
deriving DecidableEq

/-- Model of `winit::event::MouseButton`. -/
inductive MouseButton where
  | left
  | right
  | middle
  | back
  | forward
  | other (id : ℕ)
deriving DecidableEq

/-- Model of the `winit` key codes matched by `process_events`; every key the
code does not name is collapsed into `otherKey`. -/
inductive KeyCode where
  | keyW
  | keyS
  | keyA
  | keyD
  | arrowUp
  | arrowDown
  | arrowLeft
  | arrowRight
  | otherKey (id : ℕ)
deriving DecidableEq

/-- Model of `winit::event::MouseScrollDelta`. -/
inductive MouseScrollDelta where
  | lineDelta (x y : ℚ)
  | pixelDelta (x y : ℚ)
deriving DecidableEq

/-- Model of the `winit::event::WindowEvent` cases matched by
`process_events`; all remaining events are collapsed into `otherEvent`. -/
inductive WindowEvent where
  | keyboardInput (state : ElemState) (keycode : KeyCode)
  | mouseWheel (delta : MouseScrollDelta)
  | cursorMoved (x y : ℚ)
  | mouseInput (state : ElemState) (button : MouseButton)
  | otherEvent
deriving DecidableEq

/-- The `CameraController` struct of `src/camera.rs`. -/
structure CameraController where
  speed : ℚ
  cursor_location : Vec2
  mouse_clicked_at : Option Vec2
  is_up_pressed : Bool
  is_down_pressed : Bool
  is_left_pressed : Bool
  is_right_pressed : Bool
  is_mouse_pressed : Bool
  is_mouse_released : Bool
  scroll : ℚ
deriving DecidableEq

/-- `CameraController::new`. -/
def CameraController.new (speed : ℚ) : CameraController :=
  { speed := speed
    cursor_location := ⟨0, 0⟩
    mouse_clicked_at := none
    is_up_pressed := false
    is_down_pressed := false
    is_left_pressed := false
    is_right_pressed := false
    is_mouse_pressed := false
    is_mouse_released := true
    scroll := 0 }

/-- `CameraController::process_events`; returns the updated controller and
the `bool` consumption flag the method returns. -/
def CameraController.process_events (self : CameraController) (event : WindowEvent) :
    CameraController × Bool :=
  match event with
  | .keyboardInput state keycode =>
    let is_pressed := state == ElemState.pressed
    match keycode with
    | .keyW | .arrowUp => ({ self with is_up_pressed := is_pressed }, true)
    | .keyS | .arrowDown => ({ self with is_down_pressed := is_pressed }, true)
    | .keyA | .arrowLeft => ({ self with is_left_pressed := is_pressed }, true)
    | .keyD | .arrowRight => ({ self with is_right_pressed := is_pressed }, true)
    | .otherKey _ => (self, false)
  | .mouseWheel delta =>
    match delta with
    | .lineDelta _ y => ({ self with scroll := y }, true)
    | .pixelDelta _ y => ({ self with scroll := y }, true)
  | .cursorMoved px py => ({ self with cursor_location := ⟨px, py⟩ }, true)
  | .mouseInput state button =>
    let is_pressed := state == ElemState.pressed
    let is_released := state == ElemState.released
    match button with
    | .left => ({ self with is_mouse_pressed := is_pressed,
                            is_mouse_released := is_released }, true)
    | _ => (self, true)
  | .otherEvent => (self, false)

/-- The saturating `as u32` cast applied to an `f32`: negative values clamp
to `0`, values beyond `u32::MAX` clamp to `u32::MAX`, otherwise truncation
toward zero. -/
def f32_as_u32 (q : ℚ) : ℕ :=
  if q < 0 then 0 else min (Int.toNat ⌊q⌋) (2 ^ 32 - 1)

/-- Model of `u32::checked_next_power_of_two`: the least power of two that is
`≥ n`, or `none` when that power does not fit in `u32`. -/
def checked_next_pow_two (n : ℕ) : Option ℕ :=
  if n ≤ 2 ^ 31 then
    some (2 ^ ((List.range 32).findIdx fun k => decide (n ≤ 2 ^ k)))
  else none

/-- The `zoom_change` vector computed at the top of
`CameraController::update_camera`:
`forward_norm * forward_mag * self.speed * self.scroll`. -/
def zoom_change_vec (R : RealFuns) (self : CameraController) (camera : Camera) : Vec3 :=
  let forward := camera.target - camera.eye
  let forward_norm := Vec3.normalize R forward
  let forward_mag := Vec3.magnitude R forward
  Vec3.scale self.scroll (Vec3.scale self.speed (Vec3.scale forward_mag forward_norm))

/-- The `next_power_of_two` value of `update_camera`: the checked next power
of two of the prospective `eye.z` truncated to `u32`. -/
def next_pow_two_prospective (R : RealFuns) (self : CameraController) (camera : Camera) :
    Option ℕ :=
  checked_next_pow_two (f32_as_u32 (camera.eye.z + (zoom_change_vec R self camera).z))

/-- The `not_at_scroll_min` condition of `update_camera`. -/
def not_at_scroll_min (self : CameraController) (camera : Camera) : Bool :=
  decide (0 < self.scroll) && decide (1 ≤ camera.eye.z)

/-- The `not_at_scroll_max` condition of `update_camera`. -/
def not_at_scroll_max (R : RealFuns) (self : CameraController) (camera : Camera) : Bool :=
  decide (self.scroll < 0) && (next_pow_two_prospective R self camera).isSome

/-- The zoom guard of `update_camera`:
`not_at_scroll_min || not_at_scroll_max`. -/
def zoom_guard (R : RealFuns) (self : CameraController) (camera : Camera) : Bool :=
  not_at_scroll_min self camera || not_at_scroll_max R self camera

/-- The zoom block of `update_camera` (the first `if` of the method): when
the guard holds, the zoom delta is added to `eye`, the world origin's screen
position is recomputed under the new camera, the pan adjustment runs with
modifier `scroll * 0.25`, and the scroll accumulator is reset. -/
def zoom_phase (R : RealFuns) (self : CameraController) (camera : Camera)
    (size : PhysicalSize) : Option (CameraController × Camera) :=
  if zoom_guard R self camera then
    let camera1 := { camera with eye := camera.eye + zoom_change_vec R self camera }
    let origin := Camera.world_to_screen_space R camera1 ⟨0, 0, 0⟩ size
    (Camera.adjust_pan_with_cursor_position R camera1 self.cursor_location origin
        (self.scroll * (1/4)) size).map
      fun camera2 => ({ self with scroll := 0 }, camera2)
  else some (self, camera)

/-- The `is_mouse_pressed` block of `update_camera`: records the click
location, or pans from the previous anchor to the cursor and re-anchors. -/
def mouse_press_phase (R : RealFuns) (self : CameraController) (camera : Camera)
    (size : PhysicalSize) : Option (CameraController × Camera) :=
  if self.is_mouse_pressed then
    match self.mouse_clicked_at with
    | none => some ({ self with mouse_clicked_at := some self.cursor_location }, camera)
    | some anchor =>
      (Camera.adjust_pan_with_cursor_position R camera self.cursor_location anchor
          (-1) size).map
        fun camera2 => ({ self with mouse_clicked_at := some self.cursor_location }, camera2)
  else some (self, camera)

/-- The `is_mouse_released` block of `update_camera`: clears the anchor. -/
def mouse_release_phase (self : CameraController) (camera : Camera) :
    CameraController × Camera :=
  if self.is_mouse_released then ({ self with mouse_clicked_at := none }, camera)
  else (self, camera)

/-- The four directional-key blocks of `update_camera`, applied in source
order (up, down, left, right); each translates `eye` and `target` together by
`speed * eye.z` along one axis. -/
def key_phase (self : CameraController) (camera : Camera) : Camera :=
  let c1 := if self.is_up_pressed then
    { camera with eye := { camera.eye with y := camera.eye.y + self.speed * camera.eye.z },
                  target := { camera.target with y := camera.target.y + self.speed * camera.eye.z } }
    else camera
  let c2 := if self.is_down_pressed then
    { c1 with eye := { c1.eye with y := c1.eye.y - self.speed * c1.eye.z },
              target := { c1.target with y := c1.target.y - self.speed * c1.eye.z } }
    else c1
  let c3 := if self.is_left_pressed then
    { c2 with eye := { c2.eye with x := c2.eye.x - self.speed * c2.eye.z },
              target := { c2.target with x := c2.target.x - self.speed * c2.eye.z } }
    else c2
  if self.is_right_pressed then
    { c3 with eye := { c3.eye with x := c3.eye.x + self.speed * c3.eye.z },
              target := { c3.target with x := c3.target.x + self.speed * c3.eye.z } }
  else c3

/-- `CameraController::update_camera`, composed of its four blocks in source
order; `none` models a panic of one of the `unwrap` calls inside the pan
adjustment. -/
def update_camera (R : RealFuns) (self : CameraController) (camera : Camera)
    (size : PhysicalSize) : Option (CameraController × Camera) :=
  (zoom_phase R self camera size).bind fun pc =>
  (mouse_press_phase R pc.1 pc.2 size).map fun pc2 =>
    let pc3 := mouse_release_phase pc2.1 pc2.2
    (pc3.1, key_phase pc3.1 pc3.2)

/-- Modelled from the spec: the variant of `update_camera` that claim C2
describes, in which the zoom delta is added to both `eye` and `target`
before the re-anchoring pan adjustment.  It differs from `update_camera`
only in the `target` update inside the zoom block and exists solely to be
compared against the code's behaviour. -/
def update_camera_spec_c2 (R : RealFuns) (self : CameraController) (camera : Camera)
    (size : PhysicalSize) : Option (CameraController × Camera) :=
  let step1 :=
    if zoom_guard R self camera then
      let camera1 := { camera with eye := camera.eye + zoom_change_vec R self camera,
                                   target := camera.target + zoom_change_vec R self camera }
      let origin := Camera.world_to_screen_space R camera1 ⟨0, 0, 0⟩ size
      (Camera.adjust_pan_with_cursor_position R camera1 self.cursor_location origin
          (self.scroll * (1/4)) size).map
        fun camera2 => ({ self with scroll := 0 }, camera2)
    else some (self, camera)
  step1.bind fun pc =>
  (mouse_press_phase R pc.1 pc.2 size).map fun pc2 =>
    let pc3 := mouse_release_phase pc2.1 pc2.2
    (pc3.1, key_phase pc3.1 pc3.2)

/-- The `Vertex` struct of `src/graphing_engine/geometry.rs` (a 3D position;
`z` is always 0 for line geometry). -/
structure Vertex where
  position : Vec3
deriving DecidableEq

/-- The function `square_points` of `src/graphing_engine/geometry.rs`: the two
ribbon vertices for the segment `p1 → p2`, centred at `p1` when `initial` and
at `p2` otherwise. -/
def square_points (R : RealFuns) (p1 p2 : Vec2) (width : ℚ) (initial : Bool) :
    List Vertex :=
  let theta := R.atan2 (p1.x - p2.x) (p1.y - p2.y)
  let delta_x := R.cos theta * width
  let delta_y := R.sin theta * width
  if initial then
    [⟨⟨p1.x + delta_x, p1.y - delta_y, 0⟩⟩, ⟨⟨p1.x - delta_x, p1.y + delta_y, 0⟩⟩]
  else
    [⟨⟨p2.x + delta_x, p2.y - delta_y, 0⟩⟩, ⟨⟨p2.x - delta_x, p2.y + delta_y, 0⟩⟩]

/-- The function `polynomial_equation` of `src/graphing_engine/geometry.rs`:
`coeffs.iter().enumerate().map(|(i, c)| c * x.powi(i)).sum()`. -/
def polynomial_equation (x : ℚ) (coeffs : List ℚ) : ℚ :=
  (coeffs.enum.map fun ic => ic.2 * x ^ ic.1).sum

/-- `i32::MIN`. -/
def I32_MIN : ℤ := -(2 ^ 31)

/-- `i32::MAX`. -/
def I32_MAX : ℤ := 2 ^ 31 - 1

/-- Clamp an integer into the `i32` range, as the saturating `i32` operations
do. -/
def clamp_i32 (x : ℤ) : ℤ := max I32_MIN (min x I32_MAX)

/-- `i32::saturating_mul` with the constant `unit = 20`. -/
def saturating_mul20 (x : ℤ) : ℤ := clamp_i32 (x * 20)

/-- `i32::saturating_abs`. -/
def saturating_abs (x : ℤ) : ℤ := if x = I32_MIN then I32_MAX else |x|

/-- `i32::saturating_add` (on the nonnegative operands used here the lower
clamp is inert). -/
def saturating_add (a b : ℤ) : ℤ := clamp_i32 (a + b)

/-- The `step_size` of `Line::make_polynomial`:
`(x_max.abs().saturating_add(x_min.saturating_abs()) as f32 / 40.0).ceil() as usize`,
with the `f32` division and ceiling modelled exactly over `ℚ`.  The plain
`x_max.abs()` panics at `i32::MIN`; `make_polynomial` guards that case. -/
def step_size (x_min x_max : ℤ) : ℕ :=
  (⌈((saturating_add |x_max| (saturating_abs x_min) : ℤ) : ℚ) / 40⌉).toNat

/-- Lower end of the sample range: `x_min.saturating_mul(unit)`. -/
def range_lo (x_min : ℤ) : ℤ := saturating_mul20 x_min

/-- Upper end of the sample range: `x_max.saturating_mul(unit)`. -/
def range_hi (x_max : ℤ) : ℤ := saturating_mul20 x_max

/-- Number of iterations of the `make_polynomial` loop: the element count of
`(lo..hi).step_by(step)`. -/
def sample_count (x_min x_max : ℤ) : ℕ :=
  ((range_hi x_max - range_lo x_min).toNat + (step_size x_min x_max - 1)) /
    step_size x_min x_max

/-- `Line::next`: appends the two trailing ribbon vertices and the six `u16`
indices of one quad; `u16` arithmetic is modelled by `% 2 ^ 16`. -/
def line_next (R : RealFuns) (width : ℚ) (st : List Vertex × List ℕ)
    (offset : ℕ) (p1 p2 : Vec2) : List Vertex × List ℕ :=
  (st.1 ++ square_points R p1 p2 width false,
   st.2 ++ [offset, (offset + 1) % 2 ^ 16, (offset + 3) % 2 ^ 16,
            (offset + 2) % 2 ^ 16, offset, (offset + 3) % 2 ^ 16])

/-- One iteration of the `make_polynomial` loop at enumeration index `j`,
sampling `num = lo + j * step`. -/
def tessellation_step (R : RealFuns) (width : ℚ) (coeffs : List ℚ) (lo : ℤ)
    (step : ℕ) (st : List Vertex × List ℕ) (j : ℕ) : List Vertex × List ℕ :=
  let num : ℤ := lo + (j : ℤ) * (step : ℤ)
  let x1 : ℚ := (num : ℚ) / 20
  let y1 := polynomial_equation x1 coeffs
  let p1 : Vec2 := ⟨x1, y1⟩
  let x2 : ℚ := ((num : ℚ) + 1) / 20
  let y2 := polynomial_equation x2 coeffs
  let p2 : Vec2 := ⟨x2, y2⟩
  let st1 := if j = 0 then (st.1 ++ square_points R p1 p2 width true, st.2) else st
  line_next R width st1 ((j % 2 ^ 16) * 2 % 2 ^ 16) p1 p2

/-- `Line::make_polynomial`, rebuilding the vertex and index lists from
scratch; `none` models the panic of `x_max.abs()` at `i32::MIN` and the panic
of `step_by(0)`. -/
def make_polynomial (R : RealFuns) (coeffs : List ℚ) (width : ℚ)
    (x_min x_max : ℤ) : Option (List Vertex × List ℕ) :=
  if x_max = I32_MIN then none
  else if step_size x_min x_max = 0 then none
  else some ((List.range (sample_count x_min x_max)).foldl
    (tessellation_step R width coeffs (range_lo x_min) (step_size x_min x_max)) ([], []))

/-- The index pattern claimed for quad `i`: offset `2 i`, entries
`o, o+1, o+3, o+2, o, o+3`. -/
def quad_pattern (i : ℕ) : List ℕ :=
  [2 * i, 2 * i + 1, 2 * i + 3, 2 * i + 2, 2 * i, 2 * i + 3]

/-- Index pattern emitted by loop iteration `j`, with the `u16` wrap
explicit. -/
def mod_quad_pattern (j : ℕ) : List ℕ :=
  let o := (j % 2 ^ 16) * 2 % 2 ^ 16
  [o, (o + 1) % 2 ^ 16, (o + 3) % 2 ^ 16, (o + 2) % 2 ^ 16, o, (o + 3) % 2 ^ 16]

/-- Concrete instantiation of the transcendental-function bundle used by the
witnesses and counterexamples; `sqrt` is tabulated at the (perfect-square)
arguments that actually occur in those runs. -/
def R0 : RealFuns :=
  { sqrt := fun q =>
      if q = 1 then 1
      else if q = 1/4 then 1/2
      else if q = 81/16 then 9/4
      else 0
    cotDegHalf := fun _ => 1
    sin := fun _ => 0
    cos := fun _ => 1
    atan2 := fun _ _ => 0 }

/-- Concrete viewport used by witnesses and counterexamples. -/
def size0 : PhysicalSize := ⟨256, 256⟩

/-- Concrete camera with `eye.z = 1/2 < 1`, under the minimum zoom bound. -/
def cam_low : Camera :=
  { eye := ⟨0, 0, 1/2⟩, target := ⟨0, 0, 0⟩, up := ⟨0, 1, 0⟩,
    aspect := 1, fovy := 90, znear := 1, zfar := 2 }

/-- Concrete camera with `eye.z = 1`, at the minimum zoom bound. -/
def cam_unit : Camera :=
  { eye := ⟨0, 0, 1⟩, target := ⟨0, 0, 0⟩, up := ⟨0, 1, 0⟩,
    aspect := 1, fovy := 90, znear := 1, zfar := 2 }

/-- Concrete camera with a huge `eye.z`, past the maximum zoom bound. -/
def cam_high : Camera :=
  { eye := ⟨0, 0, 5000000000⟩, target := ⟨0, 0, 0⟩, up := ⟨0, 1, 0⟩,
    aspect := 1, fovy := 90, znear := 1, zfar := 2 }

/-- Idle controller with a pending positive scroll of 1. -/
def ctl_scroll1 : CameraController :=
  { speed := 1, cursor_location := ⟨0, 0⟩, mouse_clicked_at := none,
    is_up_pressed := false, is_down_pressed := false,
    is_left_pressed := false, is_right_pressed := false,
    is_mouse_pressed := false, is_mouse_released := true, scroll := 1 }

/-- Idle controller with speed 1/2 and a pending positive scroll of 1. -/
def ctl_half : CameraController :=
  { speed := 1/2, cursor_location := ⟨0, 0⟩, mouse_clicked_at := none,
    is_up_pressed := false, is_down_pressed := false,
    is_left_pressed := false, is_right_pressed := false,
    is_mouse_pressed := false, is_mouse_released := true, scroll := 1 }

/-- Idle controller with a pending negative scroll of -1. -/
def ctl_neg : CameraController :=
  { speed := 1, cursor_location := ⟨0, 0⟩, mouse_clicked_at := none,
    is_up_pressed := false, is_down_pressed := false,
    is_left_pressed := false, is_right_pressed := false,
    is_mouse_pressed := false, is_mouse_released := true, scroll := -1 }

/-! Helper lemmas. -/

@[simp]
theorem vec3_add_mk (a b c d e f : ℚ) :
    (Vec3.mk a b c) + (Vec3.mk d e f) = ⟨a + d, b + e, c + f⟩ := rfl

@[simp]
theorem vec3_sub_mk (a b c d e f : ℚ) :
    (Vec3.mk a b c) - (Vec3.mk d e f) = ⟨a - d, b - e, c - f⟩ := rfl

theorem vec3_add_x (v w : Vec3) : (v + w).x = v.x + w.x := rfl

theorem vec3_add_y (v w : Vec3) : (v + w).y = v.y + w.y := rfl

theorem vec3_add_z (v w : Vec3) : (v + w).z = v.z + w.z := rfl

theorem vec3_sub_def (v w : Vec3) : v - w = ⟨v.x - w.x, v.y - w.y, v.z - w.z⟩ := rfl

/-- Sum of the enumerated-power map, expressed as a `Finset.range` sum. -/
theorem enumFrom_pow_sum (x : ℚ) :
    ∀ (l : List ℚ) (k : ℕ),
      ((l.enumFrom k).map fun ic => ic.2 * x ^ ic.1).sum =
        ∑ i ∈ Finset.range l.length, l.getD i 0 * x ^ (k + i) := by
  intro l
  induction l with
  | nil => intro k; simp
  | cons a l ih =>
    intro k
    have hs := Finset.sum_range_succ'
      (fun i => (a :: l).getD i 0 * x ^ (k + i)) l.length
    simp only [List.enumFrom, List.map_cons, List.sum_cons, List.length_cons]
    rw [hs]
    simp only [List.getD_cons_succ, List.getD_cons_zero, pow_zero, add_zero]
    rw [ih (k + 1)]
    have : ∀ i, k + 1 + i = k + (i + 1) := by omega
    rw [Finset.sum_congr rfl fun i _ => by rw [this i]]
    ring

/-- Adding the same shift to two vectors preserves their difference. -/
theorem vec3_shift_sub (a b v : Vec3) : (a + v) - (b + v) = a - b := by
  cases a; cases b; cases v
  simp only [vec3_add_mk, vec3_sub_mk, Vec3.mk.injEq]
  refine ⟨by ring, by ring, by ring⟩

/-- Every successful pan adjustment shifts `eye` and `target` by one common
vector whose `z` component is zero. -/
theorem adjust_pan_shift (R : RealFuns) (c : Camera) (cursor origin : Vec2)
    (m : ℚ) (sz : PhysicalSize) (c2 : Camera)
    (h : Camera.adjust_pan_with_cursor_position R c cursor origin m sz = some c2) :
    ∃ v : Vec3, v.z = 0 ∧ c2.eye = c.eye + v ∧ c2.target = c.target + v := by
  unfold Camera.adjust_pan_with_cursor_position at h
  cases hcv : Camera.screen_to_view_space R c cursor sz with
  | none => rw [hcv] at h; simp at h
  | some cv =>
    rw [hcv] at h
    cases hov : Camera.screen_to_view_space R c origin sz with
    | none => rw [hov] at h; simp at h
    | some ov =>
      rw [hov] at h
      simp only [Option.some_bind, Option.map_some'] at h
      rw [Option.some.injEq] at h
      subst h
      exact ⟨_, by simp [Vec3.scale], rfl, rfl⟩

/-- The zoom block resets the scroll accumulator exactly when the zoom guard
holds, and otherwise leaves it unchanged. -/
theorem zoom_phase_scroll (R : RealFuns) (self : CameraController) (camera : Camera)
    (size : PhysicalSize) (pc : CameraController × Camera)
    (h : zoom_phase R self camera size = some pc) :
    pc.1.scroll = if zoom_guard R self camera then 0 else self.scroll := by
  unfold zoom_phase at h
  cases hb : zoom_guard R self camera with
  | false =>
    rw [hb] at h
    simp only [Bool.false_eq_true, if_false, Option.some.injEq] at h
    rw [← h]
    simp
  | true =>
    rw [hb] at h
    simp only [if_true] at h
    cases hp : Camera.adjust_pan_with_cursor_position R
        { camera with eye := camera.eye + zoom_change_vec R self camera }
        self.cursor_location
        (Camera.world_to_screen_space R
          { camera with eye := camera.eye + zoom_change_vec R self camera } ⟨0, 0, 0⟩ size)
        (self.scroll * (1/4)) size with
    | none => rw [hp] at h; simp at h
    | some c2 =>
      rw [hp] at h
      simp only [Option.map_some', Option.some.injEq] at h
      rw [← h]
      simp

/-- The mouse-press block never touches the scroll accumulator. -/
theorem mouse_press_phase_scroll (R : RealFuns) (self : CameraController)
    (camera : Camera) (size : PhysicalSize) (pc : CameraController × Camera)
    (h : mouse_press_phase R self camera size = some pc) :
    pc.1.scroll = self.scroll := by
  unfold mouse_press_phase at h
  cases hb : self.is_mouse_pressed with
  | false =>
    rw [hb] at h
    simp only [Bool.false_eq_true, if_false, Option.some.injEq] at h
    rw [← h]
  | true =>
    rw [hb] at h
    simp only [if_true] at h
    cases ha : self.mouse_clicked_at with
    | none =>
      rw [ha] at h
      dsimp only at h
      simp only [Option.some.injEq] at h
      rw [← h]
    | some anchor =>
      rw [ha] at h
      dsimp only at h
      cases hp : Camera.adjust_pan_with_cursor_position R camera
          self.cursor_location anchor (-1) size with
      | none => rw [hp] at h; simp at h
      | some c2 =>
        rw [hp] at h
        simp only [Option.map_some', Option.some.injEq] at h
        rw [← h]

/-- The mouse-release block never touches the scroll accumulator. -/
theorem mouse_release_phase_scroll (self : CameraController) (camera : Camera) :
    (mouse_release_phase self camera).1.scroll = self.scroll := by
  cases hb : self.is_mouse_released <;> simp [mouse_release_phase, hb]

/-! Claim theorems. -/

/-- C1 (amended): after `update_camera` returns, the scroll accumulator is 0
exactly when the zoom guard held on entry; when no zoom was applied it is
left unchanged, so a pending nonzero scroll survives a frame that applied no
zoom. -/
theorem update_camera_scroll (R : RealFuns) (self : CameraController)
    (camera : Camera) (size : PhysicalSize) (pc : CameraController × Camera)
    (h : update_camera R self camera size = some pc) :
    pc.1.scroll = if zoom_guard R self camera then 0 else self.scroll := by
  unfold update_camera at h
  cases hz : zoom_phase R self camera size with
  | none => rw [hz] at h; simp at h
  | some pc1 =>
    rw [hz] at h
    simp only [Option.some_bind] at h
    cases hm : mouse_press_phase R pc1.1 pc1.2 size with
    | none => rw [hm] at h; simp at h
    | some pc2 =>
      rw [hm] at h
      simp only [Option.map_some', Option.some.injEq] at h
      have h1 := zoom_phase_scroll R self camera size pc1 hz
      have h2 := mouse_press_phase_scroll R pc1.1 pc1.2 size pc2 hm
      have h3 := mouse_release_phase_scroll pc2.1 pc2.2
      rw [← h]
      simpa [h3, h2] using h1

set_option maxHeartbeats 400000 in
/-- C1 witness: the amended statement applied to a frame with scroll 1 and
`eye.z = 1/2` (no zoom applied, scroll survives). -/
theorem update_camera_scroll_witness :
    ctl_scroll1.scroll = if zoom_guard R0 ctl_scroll1 cam_low then 0 else ctl_scroll1.scroll :=
  update_camera_scroll R0 ctl_scroll1 cam_low size0 (ctl_scroll1, cam_low)
    (by norm_num [update_camera, zoom_phase, zoom_guard, not_at_scroll_min, not_at_scroll_max,
      mouse_press_phase, mouse_release_phase, key_phase, ctl_scroll1, cam_low])

set_option maxHeartbeats 400000 in
/-- C1 counterexample: with a pending scroll of 1 and `eye.z = 1/2 < 1`
neither zoom condition holds, and `update_camera` returns with the scroll
accumulator still 1, not 0. -/
theorem scroll_not_reset_counterexample :
    (update_camera R0 ctl_scroll1 cam_low size0).map (fun pc => pc.1.scroll) = some 1 ∧
    (1 : ℚ) ≠ 0 := by
  constructor
  · norm_num [update_camera, zoom_phase, zoom_guard, not_at_scroll_min, not_at_scroll_max,
      mouse_press_phase, mouse_release_phase, key_phase, ctl_scroll1, cam_low]
  · norm_num

/-- C2 (amended): when the zoom guard holds, the zoom delta is added to the
camera's eye only — the target is unchanged by the zoom step — and then the
pan adjustment runs with the cursor position, the origin recomputed under the
new camera, and modifier `scroll * 0.25`. -/
theorem zoom_adds_delta_to_eye_only (R : RealFuns) (self : CameraController)
    (camera : Camera) (size : PhysicalSize) (hg : zoom_guard R self camera = true) :
    zoom_phase R self camera size =
      (Camera.adjust_pan_with_cursor_position R
          { camera with eye := camera.eye + zoom_change_vec R self camera }
          self.cursor_location
          (Camera.world_to_screen_space R
            { camera with eye := camera.eye + zoom_change_vec R self camera } ⟨0, 0, 0⟩ size)
          (self.scroll * (1/4)) size).map
        (fun camera2 => ({ self with scroll := 0 }, camera2)) ∧
    ({ camera with eye := camera.eye + zoom_change_vec R self camera } : Camera).target
      = camera.target := by
  refine ⟨?_, rfl⟩
  unfold zoom_phase
  rw [hg]
  simp

set_option maxHeartbeats 400000 in
/-- C2 witness: the amended statement applied to a frame whose zoom guard
holds (`scroll = 1`, `eye.z = 1`). -/
theorem zoom_adds_delta_to_eye_only_witness :
    zoom_phase R0 ctl_half cam_unit size0 =
      (Camera.adjust_pan_with_cursor_position R0
          { cam_unit with eye := cam_unit.eye + zoom_change_vec R0 ctl_half cam_unit }
          ctl_half.cursor_location
          (Camera.world_to_screen_space R0
            { cam_unit with eye := cam_unit.eye + zoom_change_vec R0 ctl_half cam_unit }
            ⟨0, 0, 0⟩ size0)
          (ctl_half.scroll * (1/4)) size0).map
        (fun camera2 => ({ ctl_half with scroll := 0 }, camera2)) ∧
    ({ cam_unit with eye := cam_unit.eye + zoom_change_vec R0 ctl_half cam_unit } : Camera).target
      = cam_unit.target :=
  zoom_adds_delta_to_eye_only R0 ctl_half cam_unit size0
    (by norm_num [zoom_guard, not_at_scroll_min, not_at_scroll_max, ctl_half, cam_unit])

set_option maxHeartbeats 1600000 in
/-- C2 counterexample: on a concrete zooming frame the code and the variant
claimed by the spec (delta added to both eye and target) end with different
`target - eye` separations (`-1/2` versus `-1` in `z`), so the code does not
add the zoom delta to the target. -/
theorem zoom_target_counterexample :
    (update_camera R0 ctl_half cam_unit size0).map (fun pc => pc.2.target.z - pc.2.eye.z) ≠
    (update_camera_spec_c2 R0 ctl_half cam_unit size0).map
      (fun pc => pc.2.target.z - pc.2.eye.z) := by
  have h1 : (update_camera R0 ctl_half cam_unit size0).map
      (fun pc => pc.2.target.z - pc.2.eye.z) = some (-(1/2)) := by
    norm_num [update_camera, zoom_phase, zoom_guard, not_at_scroll_min, not_at_scroll_max,
      zoom_change_vec, Vec3.normalize, Vec3.magnitude, Vec3.dot, Vec3.scale, Vec3.cross,
      mouse_press_phase, mouse_release_phase, key_phase, ctl_half, cam_unit, size0, R0,
      Camera.world_to_screen_space, Camera.build_view_projection_matrix, Camera.build_proj_matrix,
      Camera.screen_to_view_space, Camera.adjust_pan_with_cursor_position,
      look_at_rh, perspective, OPENGL_TO_WGPU_MATRIX, Mat4.ofCols, Mat4.mul, Mat4.apply,
      Mat4.det, Mat4.adjugate, Mat4.scaleEntries, Mat4.invert,
      calculate_screen_space, normalise_screen_space, rust_signum]
  have h2 : (update_camera_spec_c2 R0 ctl_half cam_unit size0).map
      (fun pc => pc.2.target.z - pc.2.eye.z) = some (-1) := by
    norm_num [update_camera_spec_c2, zoom_guard, not_at_scroll_min, not_at_scroll_max,
      zoom_change_vec, Vec3.normalize, Vec3.magnitude, Vec3.dot, Vec3.scale, Vec3.cross,
      mouse_press_phase, mouse_release_phase, key_phase, ctl_half, cam_unit, size0, R0,
      Camera.world_to_screen_space, Camera.build_view_projection_matrix, Camera.build_proj_matrix,
      Camera.screen_to_view_space, Camera.adjust_pan_with_cursor_position,
      look_at_rh, perspective, OPENGL_TO_WGPU_MATRIX, Mat4.ofCols, Mat4.mul, Mat4.apply,
      Mat4.det, Mat4.adjugate, Mat4.scaleEntries, Mat4.invert,
      calculate_screen_space, normalise_screen_space, rust_signum]
  rw [h1, h2]
  norm_num

/-- C3 (amended): for positive scroll the zoom is blocked exactly when the
current `eye.z` is below 1 (the guard reads the current value, not the
prospective one); for negative scroll it is blocked exactly when the
next-power-of-two computation on the prospective `eye.z` is undefined. -/
theorem zoom_guard_characterisation (R : RealFuns) (self : CameraController)
    (camera : Camera) :
    (0 < self.scroll → (zoom_guard R self camera = false ↔ camera.eye.z < 1)) ∧
    (self.scroll < 0 → (zoom_guard R self camera = false ↔
      next_pow_two_prospective R self camera = none)) := by
  constructor
  · intro hs
    have hns : ¬ self.scroll < 0 := by linarith
    simp [zoom_guard, not_at_scroll_min, not_at_scroll_max, hs, hns]
  · intro hs
    have hns : ¬ 0 < self.scroll := by linarith
    simp [zoom_guard, not_at_scroll_min, not_at_scroll_max, hs, hns,
      Option.isSome_iff_exists]

/-- C3 witness: the amended characterisation applied to a zoom-in frame
(scroll 1) and a zoom-out frame (scroll -1). -/
theorem zoom_guard_characterisation_witness :
    (zoom_guard R0 ctl_scroll1 cam_low = false ↔ cam_low.eye.z < 1) ∧
    (zoom_guard R0 ctl_neg cam_high = false ↔
      next_pow_two_prospective R0 ctl_neg cam_high = none) :=
  ⟨(zoom_guard_characterisation R0 ctl_scroll1 cam_low).1 (by norm_num [ctl_scroll1]),
   (zoom_guard_characterisation R0 ctl_neg cam_high).2 (by norm_num [ctl_neg])⟩

/-- C3 counterexample: a zooming frame with `eye.z = 1` and positive scroll
is not blocked by the code even though applying the delta results in
`eye.z = 1/2 < 1`, contradicting the claim that zoom-in is blocked exactly
when `eye.z < 1.0` would result. -/
theorem zoom_in_guard_counterexample :
    zoom_guard R0 ctl_half cam_unit = true ∧
    cam_unit.eye.z + (zoom_change_vec R0 ctl_half cam_unit).z < 1 := by
  constructor
  · norm_num [zoom_guard, not_at_scroll_min, not_at_scroll_max, ctl_half, cam_unit]
  · norm_num [zoom_change_vec, Vec3.normalize, Vec3.magnitude, Vec3.dot, Vec3.scale,
      ctl_half, cam_unit, R0]

/-- C9: every completed call to `adjust_pan_with_cursor_position` adds the
same vector, with zero `z` component, to eye and target, so `target - eye`
and the zoom level `eye.z` are unchanged. -/
theorem adjust_pan_uniform_shift (R : RealFuns) (c : Camera) (cursor origin : Vec2)
    (m : ℚ) (sz : PhysicalSize) (c2 : Camera)
    (h : Camera.adjust_pan_with_cursor_position R c cursor origin m sz = some c2) :
    ∃ v : Vec3, v.z = 0 ∧ c2.eye = c.eye + v ∧ c2.target = c.target + v ∧
      c2.target - c2.eye = c.target - c.eye ∧ c2.eye.z = c.eye.z := by
  obtain ⟨v, hz, he, ht⟩ := adjust_pan_shift R c cursor origin m sz c2 h
  refine ⟨v, hz, he, ht, ?_, ?_⟩
  · rw [he, ht, vec3_shift_sub]
  · rw [he, vec3_add_z, hz, add_zero]

set_option maxHeartbeats 400000 in
/-- C9 witness: a concrete completed pan adjustment (cursor and origin both
at the viewport centre) and the invariants it preserves. -/
theorem adjust_pan_uniform_shift_witness :
    ∃ v : Vec3, v.z = 0 ∧ cam_unit.eye = cam_unit.eye + v ∧
      cam_unit.target = cam_unit.target + v ∧
      cam_unit.target - cam_unit.eye = cam_unit.target - cam_unit.eye ∧
      cam_unit.eye.z = cam_unit.eye.z :=
  adjust_pan_uniform_shift R0 cam_unit ⟨128, 128⟩ ⟨128, 128⟩ (-1) size0 cam_unit
    (by norm_num [Camera.adjust_pan_with_cursor_position, Camera.screen_to_view_space,
      Camera.build_proj_matrix, perspective, OPENGL_TO_WGPU_MATRIX, Mat4.ofCols, Mat4.mul,
      Mat4.apply, Mat4.det, Mat4.adjugate, Mat4.scaleEntries, Mat4.invert,
      normalise_screen_space, rust_signum, Vec3.scale, cam_unit, size0, R0])

/-- C4: for every viewport with positive width and height and every point `p`
of the NDC square, `normalise_screen_space` inverts `calculate_screen_space`
(exactly, in the rational model of `f32`). -/
theorem screen_space_round_trip (w h : ℕ) (p : Vec2)
    (hw : 0 < w) (hh : 0 < h)
    (hx1 : -1 ≤ p.x) (hx2 : p.x ≤ 1) (hy1 : -1 ≤ p.y) (hy2 : p.y ≤ 1) :
    normalise_screen_space (calculate_screen_space p ⟨w, h⟩) ⟨w, h⟩ = p := by
  have hwq : (w : ℚ) ≠ 0 := by exact_mod_cast hw.ne'
  have hhq : (h : ℚ) ≠ 0 := by exact_mod_cast hh.ne'
  cases p with
  | mk px py =>
    simp only [calculate_screen_space, normalise_screen_space, Vec2.mk.injEq]
    constructor
    · field_simp
      ring
    · field_simp
      ring

/-- C4 witness: the round trip at viewport 256×256 and `p = (1/2, -1/3)`. -/
theorem screen_space_round_trip_witness :
    normalise_screen_space (calculate_screen_space ⟨1/2, -1/3⟩ ⟨256, 256⟩) ⟨256, 256⟩ =
      (⟨1/2, -1/3⟩ : Vec2) :=
  screen_space_round_trip 256 256 ⟨1/2, -1/3⟩ (by norm_num) (by norm_num)
    (by norm_num) (by norm_num) (by norm_num) (by norm_num)

/-- C7: the NDC-to-pixel map sends the centre to `(w/2, h/2)`, `(1,-1)` to
`(w, h)`, `(-1,1)` to `(0,0)`, and in general follows
`screen_x = w * (nx + 1) / 2`, `screen_y = h * (ny - 1) / -2`. -/
theorem calculate_screen_space_mapping (w h : ℕ) :
    calculate_screen_space ⟨0, 0⟩ ⟨w, h⟩ = ⟨(w : ℚ) / 2, (h : ℚ) / 2⟩ ∧
    calculate_screen_space ⟨1, -1⟩ ⟨w, h⟩ = ⟨(w : ℚ), (h : ℚ)⟩ ∧
    calculate_screen_space ⟨-1, 1⟩ ⟨w, h⟩ = ⟨0, 0⟩ ∧
    ∀ p : Vec2, calculate_screen_space p ⟨w, h⟩ =
      ⟨(w : ℚ) * (p.x + 1) / 2, (h : ℚ) * (p.y - 1) / (-2)⟩ := by
  refine ⟨?_, ?_, ?_, fun p => rfl⟩ <;>
    simp only [calculate_screen_space, Vec2.mk.injEq] <;> constructor <;> ring

/-- C5: `polynomial_equation` is the sum `Σ coeffs[i] * x^i` over ascending
powers; it is 0 on the empty list and matches the documented sample values at
`x = 2`. -/
theorem polynomial_equation_spec (x : ℚ) (coeffs : List ℚ) :
    polynomial_equation x coeffs =
      (∑ i ∈ Finset.range coeffs.length, coeffs.getD i 0 * x ^ i) ∧
    polynomial_equation x [] = 0 ∧
    polynomial_equation 2 [-1, 3, 4, 1] = 29 ∧
    polynomial_equation 2 [0, 1] = 2 := by
  refine ⟨?_, rfl, ?_, ?_⟩
  · have h := enumFrom_pow_sum x coeffs 0
    simpa [polynomial_equation, List.enum] using h
  · norm_num [polynomial_equation, List.enum, List.enumFrom]
  · norm_num [polynomial_equation, List.enum, List.enumFrom]

/-- C8: `square_points` returns the centre point (`p1` when `initial`, else
`p2`) offset by plus and minus `(cos θ * width, -sin θ * width)` with
`θ = atan2 (p1.x - p2.x) (p1.y - p2.y)`, at `z = 0`. -/
theorem square_points_offsets (R : RealFuns) (p1 p2 : Vec2) (width : ℚ)
    (initial : Bool) :
    square_points R p1 p2 width initial =
      [⟨⟨(if initial then p1 else p2).x +
            R.cos (R.atan2 (p1.x - p2.x) (p1.y - p2.y)) * width,
          (if initial then p1 else p2).y -
            R.sin (R.atan2 (p1.x - p2.x) (p1.y - p2.y)) * width, 0⟩⟩,
       ⟨⟨(if initial then p1 else p2).x -
            R.cos (R.atan2 (p1.x - p2.x) (p1.y - p2.y)) * width,
          (if initial then p1 else p2).y +
            R.sin (R.atan2 (p1.x - p2.x) (p1.y - p2.y)) * width, 0⟩⟩] := by
  cases initial <;> rfl

/-- C10: a mouse-button event for any button other than the left one is
consumed (`process_events` returns `true`) and leaves the whole controller
state unchanged. -/
theorem process_events_non_left_button (self : CameraController)
    (state : ElemState) (button : MouseButton) (h : button ≠ MouseButton.left) :
    CameraController.process_events self (.mouseInput state button) = (self, true) := by
  cases button with
  | left => exact absurd rfl h
  | right => rfl
  | middle => rfl
  | back => rfl
  | forward => rfl
  | other id => rfl

/-- C10 witness: a right-button press on the idle controller is consumed and
changes nothing. -/
theorem process_events_non_left_button_witness :
    CameraController.process_events ctl_scroll1 (.mouseInput .pressed .right) =
      (ctl_scroll1, true) :=
  process_events_non_left_button ctl_scroll1 .pressed .right (by decide)

/-- Helper: `square_points` always returns exactly two vertices. -/
theorem square_points_length (R : RealFuns) (p1 p2 : Vec2) (w : ℚ) (b : Bool) :
    (square_points R p1 p2 w b).length = 2 := by
  cases b <;> rfl

/-- Helper: a non-initial loop iteration appends two vertices and one
(possibly wrapped) quad pattern. -/
theorem tess_step_pos (R : RealFuns) (width : ℚ) (coeffs : List ℚ) (lo : ℤ)
    (s : ℕ) (st : List Vertex × List ℕ) (j : ℕ) (hj : j ≠ 0) :
    (tessellation_step R width coeffs lo s st j).1.length = st.1.length + 2 ∧
    (tessellation_step R width coeffs lo s st j).2 = st.2 ++ mod_quad_pattern j := by
  unfold tessellation_step line_next
  simp [hj, square_points_length, mod_quad_pattern]

/-- Helper: the initial loop iteration appends the cap pair plus two
vertices and the first quad pattern. -/
theorem tess_step_zero (R : RealFuns) (width : ℚ) (coeffs : List ℚ) (lo : ℤ)
    (s : ℕ) (st : List Vertex × List ℕ) :
    (tessellation_step R width coeffs lo s st 0).1.length = st.1.length + 4 ∧
    (tessellation_step R width coeffs lo s st 0).2 = st.2 ++ mod_quad_pattern 0 := by
  unfold tessellation_step line_next
  simp [square_points_length, mod_quad_pattern]

/-- Helper: shape of the whole tessellation loop after `n ≥ 1` iterations. -/
theorem tess_fold_shape (R : RealFuns) (width : ℚ) (coeffs : List ℚ) (lo : ℤ) (s : ℕ) :
    ∀ n, 1 ≤ n →
      ((List.range n).foldl (tessellation_step R width coeffs lo s) ([], [])).1.length
          = 2 * n + 2 ∧
      ((List.range n).foldl (tessellation_step R width coeffs lo s) ([], [])).2
          = (List.range n).flatMap mod_quad_pattern := by
  intro n
  induction n with
  | zero => intro h; omega
  | succ m ih =>
    intro _
    by_cases hm : 1 ≤ m
    · obtain ⟨ihl, ihr⟩ := ih hm
      have hm0 : m ≠ 0 := by omega
      obtain ⟨hsl, hsr⟩ := tess_step_pos R width coeffs lo s
        ((List.range m).foldl (tessellation_step R width coeffs lo s) ([], [])) m hm0
      rw [List.range_succ, List.foldl_append, List.flatMap_append]
      constructor
      · simp only [List.foldl_cons, List.foldl_nil, hsl, ihl]
        ring
      · simp only [List.foldl_cons, List.foldl_nil, hsr, ihr, List.flatMap_singleton]
    · have hm0 : m = 0 := by omega
      subst hm0
      obtain ⟨hsl, hsr⟩ := tess_step_zero R width coeffs lo s ([], [])
      constructor
      · show (tessellation_step R width coeffs lo s ([], []) 0).1.length = 2 * 1 + 2
        rw [hsl]
        simp
      · show (tessellation_step R width coeffs lo s ([], []) 0).2
          = (List.range 1).flatMap mod_quad_pattern
        rw [hsr]
        rw [show List.range 1 = [0] from rfl, List.flatMap_singleton]
        simp

/-- Helper: forty times the step size dominates the saturated coefficient
sum (the ceiling division rounds up). -/
theorem step_size_ge (x_min x_max : ℤ) :
    saturating_add |x_max| (saturating_abs x_min) ≤ 40 * (step_size x_min x_max : ℤ) := by
  have hB0 : 0 ≤ saturating_abs x_min := by
    unfold saturating_abs
    split
    · norm_num [I32_MAX]
    · exact abs_nonneg _
  have hS0 : (0 : ℤ) ≤ saturating_add |x_max| (saturating_abs x_min) := by
    have := abs_nonneg x_max
    unfold saturating_add clamp_i32 I32_MIN I32_MAX
    omega
  have hq0 : (0 : ℚ) ≤ ((saturating_add |x_max| (saturating_abs x_min) : ℤ) : ℚ) / 40 := by
    apply div_nonneg _ (by norm_num)
    exact_mod_cast hS0
  have c1 := Int.le_ceil (((saturating_add |x_max| (saturating_abs x_min) : ℤ) : ℚ) / 40)
  have c2 : 0 ≤ ⌈((saturating_add |x_max| (saturating_abs x_min) : ℤ) : ℚ) / 40⌉ :=
    Int.ceil_nonneg hq0
  have c3 : ((step_size x_min x_max : ℕ) : ℤ) =
      ⌈((saturating_add |x_max| (saturating_abs x_min) : ℤ) : ℚ) / 40⌉ := by
    unfold step_size
    exact Int.toNat_of_nonneg c2
  rw [div_le_iff₀ (by norm_num : (0:ℚ) < 40)] at c1
  rw [c3, mul_comm]
  exact_mod_cast c1

/-- Helper: for `i32` inputs the loop runs at most 820 iterations, so the
`u16` index arithmetic never wraps. -/
theorem sample_count_le (x_min x_max : ℤ)
    (h1 : I32_MIN ≤ x_min) (h2 : x_min ≤ I32_MAX)
    (h3 : I32_MIN ≤ x_max) (h4 : x_max ≤ I32_MAX) :
    sample_count x_min x_max ≤ 820 := by
  by_cases hs0 : step_size x_min x_max = 0
  · unfold sample_count
    rw [hs0]
    simp
  have hs1 : 1 ≤ step_size x_min x_max := Nat.one_le_iff_ne_zero.mpr hs0
  have key := step_size_ge x_min x_max
  have hB1 : |x_min| - 1 ≤ saturating_abs x_min ∧ 0 ≤ saturating_abs x_min ∧
      saturating_abs x_min ≤ I32_MAX := by
    unfold saturating_abs
    split
    · rename_i hmin
      rw [hmin]
      norm_num [I32_MIN, I32_MAX]
    · refine ⟨by omega, abs_nonneg _, ?_⟩
      rcases abs_cases x_min with ⟨he, _⟩ | ⟨he, _⟩ <;> rw [he] <;>
        simp only [I32_MIN, I32_MAX] at * <;> omega
  have hhi : range_hi x_max ≤ 20 * |x_max| ∧ range_hi x_max ≤ I32_MAX := by
    unfold range_hi saturating_mul20 clamp_i32
    have := abs_nonneg x_max
    constructor
    · rcases abs_cases x_max with ⟨he, hp⟩ | ⟨he, hn⟩ <;> rw [he] <;>
        simp only [I32_MIN, I32_MAX] at * <;> omega
    · simp only [I32_MIN, I32_MAX] at *
      omega
  have hlo : -(20 * saturating_abs x_min) - 20 ≤ range_lo x_min ∧
      I32_MIN ≤ range_lo x_min := by
    unfold range_lo saturating_mul20 clamp_i32
    constructor
    · rcases abs_cases x_min with ⟨he, hp⟩ | ⟨he, hn⟩ <;>
        simp only [I32_MIN, I32_MAX] at * <;> omega
    · simp only [I32_MIN, I32_MAX] at *
      omega
  have habs : 0 ≤ |x_max| := abs_nonneg x_max
  have hd820 : range_hi x_max - range_lo x_min ≤ 820 * (step_size x_min x_max : ℤ) := by
    by_cases hsat : |x_max| + saturating_abs x_min ≤ I32_MAX
    · have hSeq : saturating_add |x_max| (saturating_abs x_min) =
          |x_max| + saturating_abs x_min := by
        unfold saturating_add clamp_i32
        simp only [I32_MIN, I32_MAX] at *
        omega
      rw [hSeq] at key
      have hs1z : (1 : ℤ) ≤ (step_size x_min x_max : ℕ) := by exact_mod_cast hs1
      omega
    · have hSeq : saturating_add |x_max| (saturating_abs x_min) = I32_MAX := by
        unfold saturating_add clamp_i32
        simp only [I32_MIN, I32_MAX] at *
        omega
      rw [hSeq] at key
      simp only [I32_MIN, I32_MAX] at *
      omega
  unfold sample_count
  have hlt : ((range_hi x_max - range_lo x_min).toNat + (step_size x_min x_max - 1)) /
      step_size x_min x_max < 821 := by
    rw [Nat.div_lt_iff_lt_mul (by omega : 0 < step_size x_min x_max)]
    omega
  omega

/-- Helper: below the wrap threshold the emitted pattern is the claimed
pattern. -/
theorem mod_quad_pattern_eq (j : ℕ) (h : j ≤ 32766) :
    mod_quad_pattern j = quad_pattern j := by
  unfold mod_quad_pattern quad_pattern
  have h1 : j % 2 ^ 16 * 2 % 2 ^ 16 = 2 * j := by omega
  rw [h1]
  show [2 * j, (2 * j + 1) % 2 ^ 16, (2 * j + 3) % 2 ^ 16, (2 * j + 2) % 2 ^ 16,
    2 * j, (2 * j + 3) % 2 ^ 16] = _
  have h2 : (2 * j + 1) % 2 ^ 16 = 2 * j + 1 := by omega
  have h3 : (2 * j + 3) % 2 ^ 16 = 2 * j + 3 := by omega
  have h4 : (2 * j + 2) % 2 ^ 16 = 2 * j + 2 := by omega
  rw [h2, h3, h4]

/-- Helper: for small `n` the concatenated emitted patterns equal the
claimed ones. -/
theorem range_flatMap_pattern (n : ℕ) (hn : n ≤ 32766) :
    (List.range n).flatMap mod_quad_pattern = (List.range n).flatMap quad_pattern := by
  have hmap : (List.range n).map mod_quad_pattern = (List.range n).map quad_pattern :=
    List.map_congr_left fun j hj =>
      mod_quad_pattern_eq j (by have := List.mem_range.mp hj; omega)
  calc (List.range n).flatMap mod_quad_pattern
      = ((List.range n).map mod_quad_pattern).flatten := by rw [List.flatMap_def]
    _ = ((List.range n).map quad_pattern).flatten := by rw [hmap]
    _ = (List.range n).flatMap quad_pattern := by rw [List.flatMap_def]

/-- Helper: `n` quads contribute `6 n` indices. -/
theorem range_flatMap_pattern_length (n : ℕ) :
    ((List.range n).flatMap quad_pattern).length = 6 * n := by
  rw [List.length_flatMap]
  rw [show (List.range n).map (List.length ∘ quad_pattern)
      = (List.range n).map (fun _ => 6) from List.map_congr_left fun a _ => rfl]
  rw [List.map_const', List.sum_replicate, List.length_range, smul_eq_mul]
  ring

/-- C6: when `make_polynomial` runs without panicking and the sample range
produces `n ≥ 1` loop iterations, the vertex list has exactly `2 * (n + 1)`
entries, the index list has exactly `6 * n` entries forming, for each `i < n`,
the quad `2i, 2i+1, 2i+3, 2i+2, 2i, 2i+3`, and every index is a valid
position in the vertex list. -/
theorem make_polynomial_shape (R : RealFuns) (coeffs : List ℚ) (width : ℚ)
    (x_min x_max : ℤ) (h1 : I32_MIN ≤ x_min) (h2 : x_min ≤ I32_MAX)
    (h3 : I32_MIN < x_max) (h4 : x_max ≤ I32_MAX)
    (hn : 1 ≤ sample_count x_min x_max) :
    ∃ verts idxs, make_polynomial R coeffs width x_min x_max = some (verts, idxs) ∧
      verts.length = 2 * (sample_count x_min x_max + 1) ∧
      idxs.length = 6 * sample_count x_min x_max ∧
      idxs = (List.range (sample_count x_min x_max)).flatMap quad_pattern ∧
      ∀ k ∈ idxs, k < verts.length := by
  have hstep : step_size x_min x_max ≠ 0 := by
    intro h0
    have : sample_count x_min x_max = 0 := by
      unfold sample_count
      rw [h0]
      simp
    omega
  have hbound := sample_count_le x_min x_max h1 h2 (le_of_lt h3) h4
  obtain ⟨hlen, hpat⟩ := tess_fold_shape R width coeffs (range_lo x_min)
    (step_size x_min x_max) (sample_count x_min x_max) hn
  refine ⟨((List.range (sample_count x_min x_max)).foldl
      (tessellation_step R width coeffs (range_lo x_min) (step_size x_min x_max)) ([], [])).1,
    ((List.range (sample_count x_min x_max)).foldl
      (tessellation_step R width coeffs (range_lo x_min) (step_size x_min x_max)) ([], [])).2,
    ?_, ?_, ?_, ?_, ?_⟩
  · unfold make_polynomial
    rw [if_neg (by omega), if_neg hstep]
  · rw [hlen]
    ring
  · rw [hpat, range_flatMap_pattern _ (by omega), range_flatMap_pattern_length]
  · rw [hpat, range_flatMap_pattern _ (by omega)]
  · intro k hk
    rw [hpat, range_flatMap_pattern _ (by omega)] at hk
    rw [List.mem_flatMap] at hk
    obtain ⟨j, hj, hkj⟩ := hk
    have hjn := List.mem_range.mp hj
    rw [hlen]
    simp only [quad_pattern, List.mem_cons, List.not_mem_nil, or_false] at hkj
    omega

set_option maxHeartbeats 800000 in
/-- C6 witness: the shape statement applied to coefficients `[]`, width 1 and
the range `[-1, 1]`, which yields 40 samples. -/
theorem make_polynomial_shape_witness :
    ∃ verts idxs, make_polynomial R0 [] 1 (-1) 1 = some (verts, idxs) ∧
      verts.length = 2 * (sample_count (-1) 1 + 1) ∧
      idxs.length = 6 * sample_count (-1) 1 ∧
      idxs = (List.range (sample_count (-1) 1)).flatMap quad_pattern ∧
      ∀ k ∈ idxs, k < verts.length :=
  make_polynomial_shape R0 [] 1 (-1) 1
    (by norm_num [I32_MIN, I32_MAX]) (by norm_num [I32_MIN, I32_MAX])
    (by norm_num [I32_MIN, I32_MAX]) (by norm_num [I32_MIN, I32_MAX])
    (by
      have hc : (⌈(1:ℚ)/20⌉ : ℤ) = 1 := by
        rw [Int.ceil_eq_iff]
        norm_num
      norm_num [sample_count, step_size, saturating_add, saturating_abs, clamp_i32,
        range_hi, range_lo, saturating_mul20, I32_MIN, I32_MAX, hc])

end GraphCalc
